import Mathlib

/-
Verification development for the gitmemos synchronization and
cache-coherence engine.

The definitions below are a shallow embedding of the repository's webhook
handler (src/app/api/webhook/github/route.ts, the named current route; the
repository also carries an unnamed earlier variant of the same route) and
of the sync coordinator (the syncIssues callback of the IssueProvider).
Timestamps are modelled as natural numbers (millisecond instants), raw HTTP
bodies and header values as byte lists, database tables as lists of rows,
and the HMAC-SHA256 primitive as an abstract function parameter, since its
implementation lives in the Node crypto library, not in this repository.
-/

deriving instance DecidableEq for Except

namespace Gitmemos

/-- ASCII bytes of the string "sha256=", the scheme tag the webhook route
prepends to the hex digest when building the expected signature header. -/
def sha256Head : List Nat := [115, 104, 97, 50, 53, 54, 61]

/-- Model of Node crypto.timingSafeEqual: a constant-time comparison that
throws when the two buffers have different lengths and otherwise reports
byte-for-byte equality. -/
def timingSafeEqual (a b : List Nat) : Except String Bool :=
  if a.length = b.length then .ok (decide (a = b))
  else .error "ERR_CRYPTO_TIMING_SAFE_EQUAL_LENGTH"

/-- Shallow embedding of verifyGitHubWebhook from the webhook route.  The
hex HMAC-SHA256 primitive is the abstract parameter hmac (secret bytes to
payload bytes to ASCII hex digest bytes); the route builds the expected
header "sha256=" ++ digest and compares the supplied header against it with
crypto.timingSafeEqual.  A missing GITHUB_WEBHOOK_SECRET makes the check
return false (fail closed). -/
def verifyGitHubWebhook (hmac : List Nat → List Nat → List Nat)
    (secret : Option (List Nat)) (payload signature : List Nat) : Except String Bool :=
  match secret with
  | none => .ok false
  | some s => timingSafeEqual signature (sha256Head ++ hmac s payload)

/-- Row of the issues table (src/types/supabase.ts). -/
structure IssueRow where
  owner : String
  repo : String
  issue_number : Nat
  title : String
  body : Option String
  state : String
  labels : List String
  github_created_at : Nat
  created_at : Nat
  updated_at : Nat
deriving DecidableEq

/-- Row of the labels table (src/types/supabase.ts). -/
structure LabelRow where
  owner : String
  repo : String
  name : String
  color : String
  description : Option String
  created_at : Nat
  updated_at : Nat
deriving DecidableEq

/-- Row of the sync_history table (src/types/supabase.ts). -/
structure SyncHistoryRow where
  id : Nat
  owner : String
  repo : String
  status : String
  issues_synced : Nat
  error_message : Option String
  last_sync_at : Nat
deriving DecidableEq

/-- Server-side state touched by the webhook route: the three Supabase
tables (with the id sequence feeding sync_history.id) plus the key set of
the shared cache. -/
structure Db where
  issues : List IssueRow
  labels : List LabelRow
  sync_history : List SyncHistoryRow
  nextId : Nat
  cache : List String
deriving DecidableEq

/-- JavaScript String.prototype.trim: strip leading and trailing
whitespace.  It is modelled directly on the character list because core
String.trim is defined by byte-position recursion the kernel cannot
evaluate. -/
def jsTrim (s : String) : String :=
  ⟨((s.toList.dropWhile Char.isWhitespace).reverse.dropWhile Char.isWhitespace).reverse⟩

/-- Modelled from the spec: the CACHE_KEYS.ISSUES key builder of the
missing module lib/cache.  Per the spec a cache key is a composite of the
tenant (owner, repo), the resource-list discriminator and the
pagination/filter parameters. -/
def cacheKeyIssues (owner repo : String) (page : Nat) (labelsFilter : String) : String :=
  "issues:" ++ owner ++ ":" ++ repo ++ ":" ++ toString page ++ ":" ++ labelsFilter

/-- The single-issue cache key written literally in the webhook route. -/
def singleIssueKey (owner repo : String) (n : Nat) : String :=
  "issue:" ++ owner ++ ":" ++ repo ++ ":" ++ toString n

namespace Webhook

/-- Tenant filter used by the pruning select in recordSync. -/
def sameTenant (owner repo : String) (r : SyncHistoryRow) : Bool :=
  r.owner == owner && r.repo == repo

/-- Descending last_sync_at order used by the pruning select in recordSync. -/
def newerFirst (a b : SyncHistoryRow) : Prop := b.last_sync_at ≤ a.last_sync_at

instance : DecidableRel newerFirst :=
  fun a b => inferInstanceAs (Decidable (b.last_sync_at ≤ a.last_sync_at))

/-- The sync_history row recordSync inserts, carrying the next id of the
sequence and the current time as last_sync_at. -/
def insertedRow (db : Db) (owner repo status : String) (issuesSynced : Nat)
    (errorMessage : Option String) (now : Nat) : SyncHistoryRow :=
  { id := db.nextId, owner := owner, repo := repo, status := status,
    issues_synced := issuesSynced, error_message := errorMessage, last_sync_at := now }

/-- Shallow embedding of recordSync in the webhook route: insert the new
sync_history row, re-select the tenant's rows ordered by last_sync_at
descending, and delete by id everything past the newest 20. -/
def recordSync (db : Db) (owner repo status : String) (issuesSynced : Nat)
    (errorMessage : Option String) (now : Nat) : Db :=
  let inserted := db.sync_history ++ [insertedRow db owner repo status issuesSynced errorMessage now]
  let allRecords := List.insertionSort newerFirst (inserted.filter (sameTenant owner repo))
  if 20 < allRecords.length then
    let idsToDelete := (allRecords.drop 20).map (fun r => r.id)
    { db with sync_history := inserted.filter (fun r => decide (r.id ∉ idsToDelete)),
              nextId := db.nextId + 1 }
  else
    { db with sync_history := inserted, nextId := db.nextId + 1 }

/-- Label object of a webhook payload. -/
structure WebhookLabel where
  name : String
  color : String
  description : Option String
deriving DecidableEq

/-- Issue object of a webhook payload; fields the handler treats as
possibly absent are options, and a none labels field models a non-array
labels value. -/
structure WebhookIssue where
  number : Option Nat
  title : Option String
  state : Option String
  body : Option String
  labels : Option (List WebhookLabel)
  created_at : Nat
deriving DecidableEq

/-- Decoded webhook payload: the repository coordinates plus the optional
issue, label and action fields the handler reads. -/
structure WebhookEvent where
  owner : String
  repo : String
  issue : Option WebhookIssue
  label : Option WebhookLabel
  action : Option String
deriving DecidableEq

/-- Responses of the webhook route: 200 success, 401 invalid signature,
500 processing failure. -/
inductive WebhookResp
  | success
  | unauthorized
  | serverError
deriving DecidableEq

/-- JavaScript falsiness of an optional number (absent or zero). -/
def falsyNat : Option Nat → Bool
  | none => true
  | some n => n == 0

/-- JavaScript falsiness of an optional string (absent or empty). -/
def falsyStr : Option String → Bool
  | none => true
  | some s => s == ""

/-- The issueData object built by the issues branch of the webhook route:
trimmed strings, labels coerced to a list of trimmed names, null body
defaulted to the empty string, and both created_at and updated_at set to
the current time. -/
def issueDataOf (owner repo : String) (i : WebhookIssue) (now : Nat) : IssueRow :=
  { owner := jsTrim owner
    repo := jsTrim repo
    issue_number := i.number.getD 0
    title := jsTrim (i.title.getD "")
    body := some (jsTrim (i.body.getD ""))
    state := jsTrim (i.state.getD "")
    labels := match i.labels with
      | some ls => ls.map (fun l => jsTrim l.name)
      | none => []
    github_created_at := i.created_at
    created_at := now
    updated_at := now }

/-- Conflict-key test for the issues table. -/
def issueKeyEq (owner repo : String) (n : Nat) (x : IssueRow) : Bool :=
  x.owner == owner && x.repo == repo && x.issue_number == n

/-- Supabase upsert with conflict key (owner, repo, issue_number) where the
payload lists every column: on conflict the stored row becomes the payload,
otherwise the payload is inserted. -/
def upsertIssueAllCols (rows : List IssueRow) (r : IssueRow) : List IssueRow :=
  if rows.any (issueKeyEq r.owner r.repo r.issue_number) then
    rows.map (fun x => if issueKeyEq r.owner r.repo r.issue_number x then r else x)
  else rows ++ [r]

/-- Conflict-key test for the labels table. -/
def labelKeyEq (owner repo name : String) (x : LabelRow) : Bool :=
  x.owner == owner && x.repo == repo && x.name == name

/-- Supabase upsert of the labelData payload in the webhook route, whose
column list omits created_at: on conflict only the listed columns are
updated (created_at keeps its stored value); on insert created_at takes the
database default, the current time. -/
def upsertLabelData (rows : List LabelRow) (owner repo name color : String)
    (description : Option String) (now : Nat) : List LabelRow :=
  if rows.any (labelKeyEq owner repo name) then
    rows.map (fun x => if labelKeyEq owner repo name x then
      { x with color := color, description := description, updated_at := now } else x)
  else
    rows ++ [{ owner := owner, repo := repo, name := name, color := color,
               description := description, created_at := now, updated_at := now }]

/-- Issues branch of the webhook route: validate the required fields, build
issueData, upsert it, drop the page-1 issues-list cache key and the
single-issue cache key, and record a successful sync.  Errors abort before
any mutation. -/
def handleIssuesRoute (db : Db) (owner repo : String) (issue : Option WebhookIssue)
    (now : Nat) : Except String Db :=
  match issue with
  | none => .error "Cannot read properties of undefined"
  | some i =>
    if falsyNat i.number || falsyStr i.title || falsyStr i.state then
      .error "Missing required issue fields"
    else
      let d := issueDataOf owner repo i now
      let issues' := upsertIssueAllCols db.issues d
      let k1 := cacheKeyIssues owner repo 1 ""
      let k2 := singleIssueKey owner repo (i.number.getD 0)
      let cache' := (db.cache.filter (fun k => decide (k ≠ k1))).filter (fun k => decide (k ≠ k2))
      .ok (recordSync { db with issues := issues', cache := cache' }
            owner repo "success" 1 none now)

/-- Label branch of the webhook route: on action deleted, delete the
(owner, repo, name) row from the labels table; on any other action, upsert
the labelData payload.  Either way a successful sync is recorded.  The
branch never touches the issues table or the cache. -/
def handleLabelRoute (db : Db) (owner repo : String) (label : Option WebhookLabel)
    (action : Option String) (now : Nat) : Except String Db :=
  match label with
  | none => .error "Cannot read properties of undefined"
  | some l =>
    if action == some "deleted" then
      let labels' := db.labels.filter (fun x => !(labelKeyEq owner repo l.name x))
      .ok (recordSync { db with labels := labels' } owner repo "success" 0 none now)
    else
      let labels' := upsertLabelData db.labels owner repo l.name l.color l.description now
      .ok (recordSync { db with labels := labels' } owner repo "success" 0 none now)

/-- Event dispatch of the webhook route inside its inner try/catch: issues
and label events go to their branches; any other event type falls through
and the route acknowledges success without touching anything.  A processing
error records a failed sync and surfaces as a 500 response. -/
def handleEventRoute (db : Db) (ev : WebhookEvent) (eventType : Option String)
    (now : Nat) : WebhookResp × Db :=
  let r : Except String Db :=
    if eventType == some "issues" then handleIssuesRoute db ev.owner ev.repo ev.issue now
    else if eventType == some "label" then
      handleLabelRoute db ev.owner ev.repo ev.label ev.action now
    else .ok db
  match r with
  | .ok db' => (.success, db')
  | .error msg => (.serverError, recordSync db ev.owner ev.repo "failed" 0 (some msg) now)

/-- Shallow embedding of the POST handler of the webhook route.  The parsed
argument stands for the outcome of JSON.parse plus the repository field
accesses (none models a parse or shape failure, which the outer catch turns
into a 500).  The signature gate runs first: a missing or empty header, or
a verifier result of false, answers 401 with the state untouched; a
verifier throw (unequal buffer lengths) is caught by the outer catch and
answers 500 with the state untouched. -/
def webhookPOST (secret : Option (List Nat)) (hmac : List Nat → List Nat → List Nat)
    (payload : List Nat) (signature : Option (List Nat))
    (eventType : Option String) (parsed : Option WebhookEvent)
    (db : Db) (now : Nat) : WebhookResp × Db :=
  match signature with
  | none => (.unauthorized, db)
  | some sig =>
    if sig.isEmpty then (.unauthorized, db)
    else
      match verifyGitHubWebhook hmac secret payload sig with
      | .error _ => (.serverError, db)
      | .ok false => (.unauthorized, db)
      | .ok true =>
        match parsed with
        | none => (.serverError, db)
        | some ev => handleEventRoute db ev eventType now

end Webhook

namespace Provider

/-- The GitHub configuration the provider holds in configRef. -/
structure GitHubConfig where
  owner : String
  repo : String
  issuesPerPage : Option Nat
deriving DecidableEq

/-- Label object as mapped from the upstream listLabelsForRepo response. -/
structure LabelObj where
  id : Nat
  name : String
  color : String
  description : Option String
deriving DecidableEq

/-- Client-side issue as mapped from the upstream listForRepo response
(the mapping at the end of the fetch reshapes raw issues into exactly these
fields, with string-form labels filtered out upstream of this model). -/
structure ClientIssue where
  number : Nat
  title : String
  body : Option String
  created_at : Nat
  github_created_at : Nat
  state : String
  labels : List LabelObj
deriving DecidableEq

/-- Client-side sync ledger row, as the spec describes SyncRecord: the
webhook and sync paths both append rows shaped like this through the
recordSync helper of the missing supabase-client module. -/
structure SyncRow where
  owner : String
  repo : String
  status : String
  issues_synced : Nat
  error_message : Option String
  sync_type : String
  last_sync_at : Nat
deriving DecidableEq

/-- Parameters the coordinator passes to octokit listForRepo. -/
structure ListParams where
  state : String
  per_page : Nat
  page : Nat
  sort : String
  direction : String
  since : Option Nat
deriving DecidableEq

/-- Modelled from the spec: recordSync of the missing supabase-client
module appends one immutable SyncRecord for the tenant to the ledger. -/
def recordSyncClient (rows : List SyncRow) (owner repo status : String)
    (issuesSynced : Nat) (errorMessage : Option String) (syncType : String)
    (now : Nat) : List SyncRow :=
  rows ++ [{ owner := owner, repo := repo, status := status,
             issues_synced := issuesSynced, error_message := errorMessage,
             sync_type := syncType, last_sync_at := now }]

/-- Modelled from the spec: checkSyncStatus of the missing supabase-client
module reports the last successful SyncRecord's last_sync_at for the
tenant, if any (the incremental cursor). -/
def checkSyncStatus (rows : List SyncRow) (owner repo : String) : Option Nat :=
  ((rows.filter (fun r => r.owner == owner && r.repo == repo && r.status == "success")).map
    (fun r => r.last_sync_at)).max?

/-- Modelled from the spec: saveLabel of the missing supabase-client module
reconciles one label by upsert, overwriting every field except created_at,
which is preserved from the existing row if present, else set to now. -/
def saveLabel (rows : List LabelRow) (owner repo : String) (l : LabelObj)
    (now : Nat) : List LabelRow :=
  if rows.any (Webhook.labelKeyEq owner repo l.name) then
    rows.map (fun x => if Webhook.labelKeyEq owner repo l.name x then
      { x with color := l.color, description := l.description, updated_at := now } else x)
  else
    rows ++ [{ owner := owner, repo := repo, name := l.name, color := l.color,
               description := l.description, created_at := now, updated_at := now }]

/-- Modelled from the spec: saveIssues of the missing supabase-client
module reconciles each fetched issue by upsert, overwriting every field
except created_at, which is preserved from the existing row if present,
else set to now. -/
def saveIssue (rows : List IssueRow) (owner repo : String) (i : ClientIssue)
    (now : Nat) : List IssueRow :=
  if rows.any (Webhook.issueKeyEq owner repo i.number) then
    rows.map (fun x => if Webhook.issueKeyEq owner repo i.number x then
      { x with title := i.title, body := i.body, state := i.state,
               labels := i.labels.map (fun l => l.name),
               github_created_at := i.github_created_at, updated_at := now } else x)
  else
    rows ++ [{ owner := owner, repo := repo, issue_number := i.number, title := i.title,
               body := i.body, state := i.state,
               labels := i.labels.map (fun l => l.name),
               github_created_at := i.github_created_at,
               created_at := now, updated_at := now }]

/-- Modelled from the spec: saveIssues batches saveIssue over the fetched
page. -/
def saveIssues (rows : List IssueRow) (owner repo : String)
    (issues : List ClientIssue) (now : Nat) : List IssueRow :=
  issues.foldl (fun acc i => saveIssue acc owner repo i now) rows

/-- One step of the JavaScript Map set used by the incremental merge:
replace the entry with the same issue number in place, else append. -/
def mapSet (acc : List ClientIssue) (i : ClientIssue) : List ClientIssue :=
  if acc.any (fun o => o.number == i.number) then
    acc.map (fun o => if o.number == i.number then i else o)
  else acc ++ [i]

/-- The incremental merge of syncIssues: build a Map keyed by issue number
from the previous issue list, set every fetched issue into it, and read the
values back in insertion order. -/
def mergeIssues (old fetched : List ClientIssue) : List ClientIssue :=
  fetched.foldl mapSet (old.foldl mapSet [])

/-- Substring test modelling String.prototype.includes, used by the cache
invalidation loop of syncIssues. -/
def strContains (hay needle : String) : Bool :=
  hay.toList.tails.any (fun t => needle.toList.isPrefixOf t)

/-- The cacheManager set call: replace the value under an existing key,
else append the entry. -/
def cacheSet (c : List (String × List ClientIssue)) (k : String)
    (v : List ClientIssue) : List (String × List ClientIssue) :=
  if c.any (fun e => e.fst == k) then
    c.map (fun e => if e.fst == k then (k, v) else e)
  else c ++ [(k, v)]

/-- The listForRepo request built by syncIssues: state all, page size from
the configuration with 50 as the JavaScript-falsy default, first page only,
sorted by update time descending, and the since cursor exactly when the
tenant has a prior successful sync. -/
def listForRepoParams (cfg : GitHubConfig) (lastSyncAt : Option Nat) : ListParams :=
  { state := "all"
    per_page := match cfg.issuesPerPage with
      | some n => if n == 0 then 50 else n
      | none => 50
    page := 1
    sort := "updated"
    direction := "desc"
    since := lastSyncAt }

/-- Process-local provider state read and written by syncIssues: the
configuration ref, the lastSyncTimeRef cooldown stamp, the in-memory issue
list, the cache, the sync ledger and the two durable tables. -/
structure ProviderState where
  config : Option GitHubConfig
  lastSyncTime : Nat
  issues : List ClientIssue
  cache : List (String × List ClientIssue)
  syncRows : List SyncRow
  dbLabels : List LabelRow
  dbIssues : List IssueRow
deriving DecidableEq

/-- Environment of one syncIssues invocation: the clock, the token lookup
and the two upstream responses. -/
structure SyncDeps where
  now : Nat
  token : Option String
  upstreamLabels : List LabelObj
  upstreamIssues : List ClientIssue
deriving DecidableEq

/-- Errors syncIssues throws before or instead of completing. -/
inductive SyncError
  | configMissing
  | rateLimited (waitSeconds : Nat)
  | tokenMissing
deriving DecidableEq

/-- The value syncIssues resolves with on success. -/
structure SyncSuccess where
  totalSynced : Nat
  syncType : String
deriving DecidableEq

/-- Result of one syncIssues invocation: the outcome, the state afterwards,
and a trace of the listForRepo parameters if the fetch was reached. -/
structure SyncOutput where
  result : Except SyncError SyncSuccess
  state : ProviderState
  listParams : Option ListParams
deriving DecidableEq

/-- Shallow embedding of the syncIssues callback of the IssueProvider.
Control flow follows the source: missing configuration throws; a call
within 60000 ms of the last attempt's start throws the rate-limit error
with the remaining wait in whole seconds and changes nothing; otherwise
lastSyncTimeRef is stamped, a missing token records a failed full sync and
throws; labels are reconciled; the incremental cursor is read and the
listForRepo parameters are built; an incremental fetch of zero issues
records a successful incremental sync and returns with cache and in-memory
issues untouched; otherwise issues are saved, merged into the previous list
when incremental, every cache entry whose key contains owner:repo is
removed, a fresh page-1 entry is set, and a successful sync is recorded. -/
def syncIssues (st : ProviderState) (deps : SyncDeps) : SyncOutput :=
  match st.config with
  | none => { result := .error .configMissing, state := st, listParams := none }
  | some cfg =>
    let timeSinceLastSync := deps.now - st.lastSyncTime
    if timeSinceLastSync < 60000 then
      { result := .error (.rateLimited ((60000 - timeSinceLastSync + 999) / 1000))
        state := st, listParams := none }
    else
      let st1 := { st with lastSyncTime := deps.now }
      match deps.token with
      | none =>
        let failRows := recordSyncClient st1.syncRows cfg.owner cfg.repo "failed" 0 (some "GitHub token not found") "full" deps.now
        { result := .error .tokenMissing
          state := { st1 with syncRows := failRows }
          listParams := none }
      | some _ =>
        let labels' := deps.upstreamLabels.foldl (fun acc l => saveLabel acc cfg.owner cfg.repo l deps.now) st1.dbLabels
        let st2 := { st1 with dbLabels := labels' }
        let lastSyncAt := checkSyncStatus st2.syncRows cfg.owner cfg.repo
        let isFullSync := lastSyncAt.isNone
        let params := listForRepoParams cfg lastSyncAt
        let issues := deps.upstreamIssues
        if ¬isFullSync ∧ issues.isEmpty then
          let emptyRows := recordSyncClient st2.syncRows cfg.owner cfg.repo "success" 0 none "add" deps.now
          { result := .ok { totalSynced := 0, syncType := "add" }
            state := { st2 with syncRows := emptyRows }
            listParams := some params }
        else
          let dbIssues' := saveIssues st2.dbIssues cfg.owner cfg.repo issues deps.now
          let updatedIssues := if isFullSync then issues else mergeIssues st2.issues issues
          let cache1 := st2.cache.filter (fun e => !(strContains e.fst (cfg.owner ++ ":" ++ cfg.repo)))
          let cache2 := cacheSet cache1 (cacheKeyIssues cfg.owner cfg.repo 1 "") updatedIssues
          let syncType := if isFullSync then "full" else "add"
          let okRows := recordSyncClient st2.syncRows cfg.owner cfg.repo "success" issues.length none syncType deps.now
          { result := .ok { totalSynced := issues.length, syncType := syncType }
            state := { st2 with dbIssues := dbIssues', issues := updatedIssues, cache := cache2, syncRows := okRows }
            listParams := some params }

end Provider

/-- The empty server-side state. -/
def emptyDb : Db :=
  { issues := [], labels := [], sync_history := [], nextId := 0, cache := [] }

/-- A concrete well-formed issues webhook payload used by concrete runs. -/
def sampleIssue : Webhook.WebhookIssue :=
  { number := some 1, title := some "t", state := some "open", body := none,
    labels := some [], created_at := 500 }

/-- A concrete decoded issues event for tenant (o, r). -/
def sampleIssuesEvent : Webhook.WebhookEvent :=
  { owner := "o", repo := "r", issue := some sampleIssue, label := none, action := none }

/-- A server-side state whose cache holds a page-2 issues entry for tenant
(o, r). -/
def dbWithPage2Entry : Db :=
  { emptyDb with cache := [cacheKeyIssues "o" "r" 2 ""] }

/-- A concrete issue row for tenant (o, r) whose label set contains bug. -/
def issueTaggedBug : IssueRow :=
  { owner := "o", repo := "r", issue_number := 1, title := "t", body := none,
    state := "open", labels := ["bug"], github_created_at := 5, created_at := 5,
    updated_at := 10 }

/-- A concrete label payload named bug. -/
def labelBug : Webhook.WebhookLabel := { name := "bug", color := "f00", description := none }

/-- A server-side state holding one issue tagged bug and the bug label row. -/
def dbWithBugLabel : Db :=
  { emptyDb with issues := [issueTaggedBug],
                 labels := [{ owner := "o", repo := "r", name := "bug", color := "0f0",
                              description := none, created_at := 1, updated_at := 1 }] }

/-- A concrete provider state for tenant (o, r) with one prior successful
sync at instant 70000 and one cache entry for the tenant. -/
def sampleProviderState : Provider.ProviderState :=
  { config := some { owner := "o", repo := "r", issuesPerPage := none }
    lastSyncTime := 10000
    issues := []
    cache := [(cacheKeyIssues "o" "r" 1 "", [])]
    syncRows := [{ owner := "o", repo := "r", status := "success", issues_synced := 3,
                   error_message := none, sync_type := "full", last_sync_at := 70000 }]
    dbLabels := []
    dbIssues := [] }

/-- Concrete dependencies: clock past the cooldown, token present, nothing
upstream. -/
def sampleDeps : Provider.SyncDeps :=
  { now := 80000, token := some "tok", upstreamLabels := [], upstreamIssues := [] }

theorem Webhook.recordSync_issues (db : Db) (owner repo status : String) (n : Nat)
    (em : Option String) (now : Nat) :
    (Webhook.recordSync db owner repo status n em now).issues = db.issues := by
  unfold Webhook.recordSync
  dsimp only
  split <;> rfl

theorem Webhook.recordSync_labels (db : Db) (owner repo status : String) (n : Nat)
    (em : Option String) (now : Nat) :
    (Webhook.recordSync db owner repo status n em now).labels = db.labels := by
  unfold Webhook.recordSync
  dsimp only
  split <;> rfl

theorem Webhook.recordSync_cache (db : Db) (owner repo status : String) (n : Nat)
    (em : Option String) (now : Nat) :
    (Webhook.recordSync db owner repo status n em now).cache = db.cache := by
  unfold Webhook.recordSync
  dsimp only
  split <;> rfl

/-- C1: reconciling the same issues webhook payload twice through the
current webhook route does yield exactly one row, but the second delivery
overwrites created_at with its own time: after deliveries at instants 1000
and 2000 the sole stored row carries created_at 2000 (and updated_at 2000),
not the first reconciliation's created_at 1000. -/
theorem C1_redelivery_overwrites_created_at :
    Except.map (fun db => (db.issues.map (fun x => x.created_at), db.issues.map (fun x => x.updated_at)))
        (Webhook.handleIssuesRoute emptyDb "o" "r" (some sampleIssue) 1000) = .ok ([1000], [1000])
    ∧ Except.map (fun db => (db.issues.map (fun x => x.created_at), db.issues.map (fun x => x.updated_at)))
        ((Webhook.handleIssuesRoute emptyDb "o" "r" (some sampleIssue) 1000).bind
          (fun db1 => Webhook.handleIssuesRoute db1 "o" "r" (some sampleIssue) 2000)) = .ok ([2000], [2000]) := by
  decide

/-- C3: the signature gate of the webhook route accepts exactly when the
header equals "sha256=" followed by the hex HMAC-SHA256 of the raw payload
bytes under the configured secret; a missing header, or any same-length
mismatching header (hence any single-byte substitution in payload or
header), is answered 401 with the state untouched, and this holds for every
value of the parsed event, so the rejection happens before the payload is
parsed and before any side effect. -/
theorem C3_signature_gate (hmac : List Nat → List Nat → List Nat)
    (s payload sig : List Nat) (eventType : Option String)
    (parsed : Option Webhook.WebhookEvent) (db : Db) (now : Nat) :
    (verifyGitHubWebhook hmac (some s) payload sig = .ok true ↔
      sig = sha256Head ++ hmac s payload)
    ∧ Webhook.webhookPOST (some s) hmac payload none eventType parsed db now
        = (.unauthorized, db)
    ∧ (sig.length = (sha256Head ++ hmac s payload).length →
        sig ≠ sha256Head ++ hmac s payload →
        Webhook.webhookPOST (some s) hmac payload (some sig) eventType parsed db now
          = (.unauthorized, db)) := by
  refine ⟨?_, rfl, ?_⟩
  · unfold verifyGitHubWebhook timingSafeEqual
    by_cases h : sig.length = (sha256Head ++ hmac s payload).length
    · simp [h]
    · simp only [h, if_false]
      constructor
      · intro hx
        exact absurd hx (by simp)
      · intro hEq
        exact absurd (by rw [hEq]) h
  · intro hlen hne
    unfold Webhook.webhookPOST
    by_cases he : sig.isEmpty
    · simp [he]
    · simp only [he, if_false]
      unfold verifyGitHubWebhook timingSafeEqual
      simp [hlen, hne]

/-- C3 witness: with a digest primitive returning the single byte 48, the
expected header is the 8-byte "sha256=" ++ [48]; the all-ones 8-byte header
has the same length, differs, and is answered 401; a missing header is also
answered 401; and acceptance is equivalent to supplying the expected
header. -/
theorem C3_signature_gate_witness :
    (verifyGitHubWebhook (fun _ _ => [48]) (some [7]) [1] [1, 1, 1, 1, 1, 1, 1, 1] = .ok true ↔
      [1, 1, 1, 1, 1, 1, 1, 1] = sha256Head ++ [48])
    ∧ Webhook.webhookPOST (some [7]) (fun _ _ => [48]) [1] none (some "issues") none emptyDb 0
        = (.unauthorized, emptyDb)
    ∧ Webhook.webhookPOST (some [7]) (fun _ _ => [48]) [1] (some [1, 1, 1, 1, 1, 1, 1, 1])
        (some "issues") none emptyDb 0 = (.unauthorized, emptyDb) :=
  ⟨(C3_signature_gate (fun _ _ => [48]) [7] [1] [1, 1, 1, 1, 1, 1, 1, 1] (some "issues") none emptyDb 0).1,
   (C3_signature_gate (fun _ _ => [48]) [7] [1] [1, 1, 1, 1, 1, 1, 1, 1] (some "issues") none emptyDb 0).2.1,
   (C3_signature_gate (fun _ _ => [48]) [7] [1] [1, 1, 1, 1, 1, 1, 1, 1] (some "issues") none emptyDb 0).2.2
     (by decide) (by decide)⟩

/-- C4: a sync started less than 60 seconds after the previous attempt's
start is rejected with the rate-limit error carrying the remaining wait in
whole seconds, and the provider state - ledger, cache, issue lists and
cooldown stamp included - is unchanged. -/
theorem C4_cooldown_rejects (st : Provider.ProviderState) (deps : Provider.SyncDeps)
    (cfg : Provider.GitHubConfig) (hc : st.config = some cfg)
    (_hmono : st.lastSyncTime ≤ deps.now)
    (hlt : deps.now - st.lastSyncTime < 60000) :
    Provider.syncIssues st deps =
      { result := .error (.rateLimited ((60000 - (deps.now - st.lastSyncTime) + 999) / 1000))
        state := st
        listParams := none } := by
  unfold Provider.syncIssues
  rw [hc]
  simp [hlt]

/-- C4 witness: with the previous attempt started at 10000 and a new call
at 30000 (20 seconds later), the call is rejected with 40 seconds of
remaining wait and the state is unchanged. -/
theorem C4_cooldown_rejects_witness :
    Provider.syncIssues sampleProviderState { sampleDeps with now := 30000 } =
      { result := .error (.rateLimited 40)
        state := sampleProviderState
        listParams := none } :=
  C4_cooldown_rejects sampleProviderState { sampleDeps with now := 30000 }
    { owner := "o", repo := "r", issuesPerPage := none } rfl (by decide) (by decide)

/-- C5: once a sync passes the cooldown guard and has a token, it calls the
upstream client with the parameters built from the incremental cursor:
first page, sorted by update time descending, and with since absent exactly
when the tenant has no prior successful SyncRecord, else equal to that
record's time. -/
theorem C5_since_cursor (st : Provider.ProviderState) (deps : Provider.SyncDeps)
    (cfg : Provider.GitHubConfig) (tok : String) (hc : st.config = some cfg)
    (hg : ¬ deps.now - st.lastSyncTime < 60000) (ht : deps.token = some tok) :
    (Provider.syncIssues st deps).listParams =
      some (Provider.listForRepoParams cfg (Provider.checkSyncStatus st.syncRows cfg.owner cfg.repo))
    ∧ (Provider.listForRepoParams cfg (Provider.checkSyncStatus st.syncRows cfg.owner cfg.repo)).since
        = Provider.checkSyncStatus st.syncRows cfg.owner cfg.repo
    ∧ (∀ T, (Provider.listForRepoParams cfg (some T)).since = some T)
    ∧ (Provider.listForRepoParams cfg none).since = none
    ∧ (Provider.listForRepoParams cfg (Provider.checkSyncStatus st.syncRows cfg.owner cfg.repo)).sort = "updated"
    ∧ (Provider.listForRepoParams cfg (Provider.checkSyncStatus st.syncRows cfg.owner cfg.repo)).direction = "desc" := by
  refine ⟨?_, rfl, fun T => rfl, rfl, rfl, rfl⟩
  unfold Provider.syncIssues
  rw [hc]
  simp only [hg, if_false, ht]
  split <;> rfl

/-- C5 witness: the sample tenant has a successful SyncRecord at 70000, so
the next sync passes since = 70000, sorted by update time descending. -/
theorem C5_since_cursor_witness :
    (Provider.syncIssues sampleProviderState sampleDeps).listParams =
      some (Provider.listForRepoParams { owner := "o", repo := "r", issuesPerPage := none }
        (Provider.checkSyncStatus sampleProviderState.syncRows "o" "r"))
    ∧ (Provider.listForRepoParams { owner := "o", repo := "r", issuesPerPage := none }
        (Provider.checkSyncStatus sampleProviderState.syncRows "o" "r")).since
        = Provider.checkSyncStatus sampleProviderState.syncRows "o" "r"
    ∧ (∀ T, (Provider.listForRepoParams { owner := "o", repo := "r", issuesPerPage := none } (some T)).since = some T)
    ∧ (Provider.listForRepoParams { owner := "o", repo := "r", issuesPerPage := none } none).since = none
    ∧ (Provider.listForRepoParams { owner := "o", repo := "r", issuesPerPage := none }
        (Provider.checkSyncStatus sampleProviderState.syncRows "o" "r")).sort = "updated"
    ∧ (Provider.listForRepoParams { owner := "o", repo := "r", issuesPerPage := none }
        (Provider.checkSyncStatus sampleProviderState.syncRows "o" "r")).direction = "desc" :=
  C5_since_cursor sampleProviderState sampleDeps
    { owner := "o", repo := "r", issuesPerPage := none } "tok" rfl (by decide) rfl

/-- C9: an incremental sync that fetches zero issues records one successful
SyncRecord with zero issues synced and the incremental sync type, and
returns with the cache, the in-memory issue list and the durable issue rows
untouched - only the cooldown stamp, the reconciled labels and the ledger
change. -/
theorem C9_empty_incremental (st : Provider.ProviderState) (deps : Provider.SyncDeps)
    (cfg : Provider.GitHubConfig) (tok : String) (T : Nat)
    (hc : st.config = some cfg) (hg : ¬ deps.now - st.lastSyncTime < 60000)
    (ht : deps.token = some tok)
    (hT : Provider.checkSyncStatus st.syncRows cfg.owner cfg.repo = some T)
    (he : deps.upstreamIssues = []) :
    Provider.syncIssues st deps =
      { result := .ok { totalSynced := 0, syncType := "add" }
        state := { st with
            lastSyncTime := deps.now
            dbLabels := deps.upstreamLabels.foldl (fun acc l => Provider.saveLabel acc cfg.owner cfg.repo l deps.now) st.dbLabels
            syncRows := Provider.recordSyncClient st.syncRows cfg.owner cfg.repo "success" 0 none "add" deps.now }
        listParams := some (Provider.listForRepoParams cfg (some T)) } := by
  unfold Provider.syncIssues
  rw [hc]
  simp [hg, ht, hT, he]

/-- C9 witness: the sample tenant (prior success at 70000) syncing at 80000
with an empty incremental result records SyncRecord success 0 add and keeps
cache and issues as they were. -/
theorem C9_empty_incremental_witness :
    Provider.syncIssues sampleProviderState sampleDeps =
      { result := .ok { totalSynced := 0, syncType := "add" }
        state := { sampleProviderState with
            lastSyncTime := 80000
            dbLabels := []
            syncRows := Provider.recordSyncClient sampleProviderState.syncRows "o" "r" "success" 0 none "add" 80000 }
        listParams := some (Provider.listForRepoParams { owner := "o", repo := "r", issuesPerPage := none } (some 70000)) } :=
  C9_empty_incremental sampleProviderState sampleDeps
    { owner := "o", repo := "r", issuesPerPage := none } "tok" 70000 rfl (by decide) rfl (by decide) rfl

/-- C7: on a deleted label event the current webhook route removes exactly
the rows matching (owner, repo, name) from the labels table - so, when
exactly one row matches the unique key, the table shrinks by exactly one -
and leaves every issue row and the cache untouched (no cascade). -/
theorem C7_label_delete_frame (db : Db) (o r : String) (l : Webhook.WebhookLabel)
    (now : Nat)
    (hone : (db.labels.filter (Webhook.labelKeyEq o r l.name)).length = 1) :
    Except.map (fun d => d.issues) (Webhook.handleLabelRoute db o r (some l) (some "deleted") now)
      = .ok db.issues
    ∧ Except.map (fun d => d.labels) (Webhook.handleLabelRoute db o r (some l) (some "deleted") now)
      = .ok (db.labels.filter (fun x => !(Webhook.labelKeyEq o r l.name x)))
    ∧ Except.map (fun d => d.labels.length) (Webhook.handleLabelRoute db o r (some l) (some "deleted") now)
      = .ok (db.labels.length - 1)
    ∧ Except.map (fun d => d.cache) (Webhook.handleLabelRoute db o r (some l) (some "deleted") now)
      = .ok db.cache := by
  have hrun : Webhook.handleLabelRoute db o r (some l) (some "deleted") now =
      .ok (Webhook.recordSync
        { db with labels := db.labels.filter (fun x => !(Webhook.labelKeyEq o r l.name x)) }
        o r "success" 0 none now) := by
    unfold Webhook.handleLabelRoute
    simp
  have hsum := (List.filter_append_perm (Webhook.labelKeyEq o r l.name) db.labels).length_eq
  rw [List.length_append, hone] at hsum
  rw [hrun]
  refine ⟨?_, ?_, ?_, ?_⟩ <;>
    simp [Except.map, Webhook.recordSync_issues, Webhook.recordSync_labels,
          Webhook.recordSync_cache]
  omega

/-- C7 witness: deleting the bug label from the sample state removes that
one label row and leaves the issue tagged bug untouched. -/
theorem C7_label_delete_frame_witness :
    Except.map (fun d => d.issues) (Webhook.handleLabelRoute dbWithBugLabel "o" "r" (some labelBug) (some "deleted") 999)
      = .ok dbWithBugLabel.issues
    ∧ Except.map (fun d => d.labels) (Webhook.handleLabelRoute dbWithBugLabel "o" "r" (some labelBug) (some "deleted") 999)
      = .ok (dbWithBugLabel.labels.filter (fun x => !(Webhook.labelKeyEq "o" "r" labelBug.name x)))
    ∧ Except.map (fun d => d.labels.length) (Webhook.handleLabelRoute dbWithBugLabel "o" "r" (some labelBug) (some "deleted") 999)
      = .ok (dbWithBugLabel.labels.length - 1)
    ∧ Except.map (fun d => d.cache) (Webhook.handleLabelRoute dbWithBugLabel "o" "r" (some labelBug) (some "deleted") 999)
      = .ok dbWithBugLabel.cache :=
  C7_label_delete_frame dbWithBugLabel "o" "r" labelBug 999 (by decide)

/-- C8 counterexample: the sample state holds an issue whose label set
contains bug with updated_at 10; handling a label edited event for bug at
instant 999 leaves that issue's updated_at at 10 - the current webhook
route does not bump updated_at on referencing issues. -/
theorem C8_edited_label_leaves_issues_untouched :
    Except.map (fun d => d.issues.map (fun x => x.updated_at))
        (Webhook.handleLabelRoute dbWithBugLabel "o" "r" (some labelBug) (some "edited") 999)
      = .ok [10]
    ∧ dbWithBugLabel.issues.map (fun x => x.labels) = [["bug"]]
    ∧ (10 : Nat) ≠ 999 := by
  decide

/-- C8 (amended): on a label created or edited event the current webhook
route upserts the labelData payload (all listed columns overwritten,
created_at preserved on conflict) and leaves every issue row unchanged - it
does not bump updated_at on issues referencing the label. -/
theorem C8_label_upsert_no_issue_touch (db : Db) (o r : String)
    (l : Webhook.WebhookLabel) (action : Option String) (now : Nat)
    (hna : action ≠ some "deleted") :
    Except.map (fun d => d.labels) (Webhook.handleLabelRoute db o r (some l) action now)
      = .ok (Webhook.upsertLabelData db.labels o r l.name l.color l.description now)
    ∧ Except.map (fun d => d.issues) (Webhook.handleLabelRoute db o r (some l) action now)
      = .ok db.issues := by
  have hb : (action == some "deleted") = false := by
    cases h : action == some "deleted"
    · rfl
    · exact absurd (eq_of_beq h) hna
  constructor <;>
    simp [Webhook.handleLabelRoute, hb, Except.map, Webhook.recordSync_issues,
          Webhook.recordSync_labels]

/-- C8 amended witness: editing the bug label in the sample state updates
the label row and leaves the issue list exactly as it was. -/
theorem C8_label_upsert_no_issue_touch_witness :
    Except.map (fun d => d.labels) (Webhook.handleLabelRoute dbWithBugLabel "o" "r" (some labelBug) (some "edited") 999)
      = .ok (Webhook.upsertLabelData dbWithBugLabel.labels "o" "r" labelBug.name labelBug.color labelBug.description 999)
    ∧ Except.map (fun d => d.issues) (Webhook.handleLabelRoute dbWithBugLabel "o" "r" (some labelBug) (some "edited") 999)
      = .ok dbWithBugLabel.issues :=
  C8_label_upsert_no_issue_touch dbWithBugLabel "o" "r" labelBug (some "edited") 999 (by decide)

/-- C10 counterexample: the empty signature header has byte length 0, which
differs from the 71-byte expected header, yet the route answers 401, not
500: the JavaScript falsiness check short-circuits before timingSafeEqual
can throw. -/
theorem C10_empty_signature_answers_401 :
    (([] : List Nat).length ≠ (sha256Head ++ List.replicate 64 48).length)
    ∧ Webhook.webhookPOST (some [7]) (fun _ _ => List.replicate 64 48) [1] (some [])
        (some "issues") none emptyDb 0 = (.unauthorized, emptyDb) := by
  constructor
  · decide
  · rfl

/-- C10 (amended): for every present, non-empty signature header whose byte
length differs from that of the expected "sha256=" ++ digest header,
verification throws (it does not return false) and the route answers 500
with the state untouched, instead of the 401 a mismatch of equal length
gets. -/
theorem C10_length_mismatch_throws_500 (hmac : List Nat → List Nat → List Nat)
    (s payload sig : List Nat) (eventType : Option String)
    (parsed : Option Webhook.WebhookEvent) (db : Db) (now : Nat)
    (hne : sig ≠ []) (hlen : sig.length ≠ (sha256Head ++ hmac s payload).length) :
    (∃ e, verifyGitHubWebhook hmac (some s) payload sig = .error e)
    ∧ Webhook.webhookPOST (some s) hmac payload (some sig) eventType parsed db now
        = (.serverError, db) := by
  have hv : verifyGitHubWebhook hmac (some s) payload sig
      = .error "ERR_CRYPTO_TIMING_SAFE_EQUAL_LENGTH" := by
    unfold verifyGitHubWebhook timingSafeEqual
    exact if_neg hlen
  refine ⟨⟨_, hv⟩, ?_⟩
  unfold Webhook.webhookPOST
  have he : sig.isEmpty = false := by
    cases sig
    · exact absurd rfl hne
    · rfl
  simp [he, hv]

/-- C10 amended witness: a one-byte signature header differs in length from
the 71-byte expected header and is answered 500 with the state untouched. -/
theorem C10_length_mismatch_throws_500_witness :
    (∃ e, verifyGitHubWebhook (fun _ _ => List.replicate 64 48) (some [7]) [1] [9] = .error e)
    ∧ Webhook.webhookPOST (some [7]) (fun _ _ => List.replicate 64 48) [1] (some [9])
        (some "issues") none emptyDb 0 = (.serverError, emptyDb) :=
  C10_length_mismatch_throws_500 (fun _ _ => List.replicate 64 48) [7] [1] [9]
    (some "issues") none emptyDb 0 (by decide) (by decide)

/-- C2 counterexample: a successful issues webhook delivery for tenant
(o, r) leaves the previously cached page-2 issues entry for the same tenant
in the cache: the route removes only the page-1 list key and the
single-issue key, so not every cache entry of the tenant is invalidated
before success is returned. -/
theorem C2_stale_tenant_entry_survives_webhook :
    (Webhook.webhookPOST (some [7]) (fun _ _ => [48, 49]) [1] (some (sha256Head ++ [48, 49]))
        (some "issues") (some sampleIssuesEvent) dbWithPage2Entry 1000).fst = .success
    ∧ cacheKeyIssues "o" "r" 2 "" ∈
        (Webhook.webhookPOST (some [7]) (fun _ _ => [48, 49]) [1] (some (sha256Head ++ [48, 49]))
          (some "issues") (some sampleIssuesEvent) dbWithPage2Entry 1000).snd.cache := by
  decide

/-- C2 (amended): invalidation scope per write path.  The sync path removes
every cache entry whose key contains owner:repo before setting the fresh
page-1 entry; the webhook issues path removes only the page-1 issues-list
key and the single-issue key; the webhook label path leaves the cache
unchanged. -/
theorem C2_invalidation_scope :
    (∀ (st : Provider.ProviderState) (deps : Provider.SyncDeps) (cfg : Provider.GitHubConfig)
        (tok : String), st.config = some cfg → ¬ deps.now - st.lastSyncTime < 60000 →
        deps.token = some tok →
        ((Provider.checkSyncStatus st.syncRows cfg.owner cfg.repo).isNone ∨ deps.upstreamIssues ≠ []) →
        (Provider.syncIssues st deps).state.cache =
          Provider.cacheSet
            (st.cache.filter (fun e => !(Provider.strContains e.fst (cfg.owner ++ ":" ++ cfg.repo))))
            (cacheKeyIssues cfg.owner cfg.repo 1 "")
            (if (Provider.checkSyncStatus st.syncRows cfg.owner cfg.repo).isNone then deps.upstreamIssues
             else Provider.mergeIssues st.issues deps.upstreamIssues))
    ∧ (∀ (db : Db) (o r : String) (i : Webhook.WebhookIssue) (now : Nat),
        Webhook.falsyNat i.number = false → Webhook.falsyStr i.title = false →
        Webhook.falsyStr i.state = false →
        Except.map (fun d => d.cache) (Webhook.handleIssuesRoute db o r (some i) now)
          = .ok ((db.cache.filter (fun k => decide (k ≠ cacheKeyIssues o r 1 ""))).filter
              (fun k => decide (k ≠ singleIssueKey o r (i.number.getD 0)))))
    ∧ (∀ (db : Db) (o r : String) (l : Webhook.WebhookLabel) (action : Option String) (now : Nat),
        Except.map (fun d => d.cache) (Webhook.handleLabelRoute db o r (some l) action now)
          = .ok db.cache) := by
  refine ⟨?_, ?_, ?_⟩
  · intro st deps cfg tok hc hg ht hready
    unfold Provider.syncIssues
    rw [hc]
    simp only [hg, if_false, ht]
    split
    · rename_i hcond
      rcases hready with hfull | hne
      · rw [Option.isNone_iff_eq_none] at hfull
        simp [hfull] at hcond
      · rcases hcond with ⟨_, hemp⟩
        exact absurd (List.isEmpty_iff.mp hemp) hne
    · rename_i hcond
      by_cases hfull : (Provider.checkSyncStatus st.syncRows cfg.owner cfg.repo).isNone
      · simp [hfull]
      · simp [hfull]
  · intro db o r i now hn htl hs
    unfold Webhook.handleIssuesRoute
    simp [hn, htl, hs, Except.map, Webhook.recordSync_cache]
  · intro db o r l action now
    cases hb : (action == some "deleted") <;>
      simp [Webhook.handleLabelRoute, hb, Except.map, Webhook.recordSync_cache]

/-- C2 amended witness: concrete instances of all three scopes - the sample
sync run rewrites the tenant cache around the fresh page-1 entry, the
sample issues delivery removes exactly the two keys, and a label delivery
leaves the cache alone. -/
theorem C2_invalidation_scope_witness :
    ((Provider.syncIssues { sampleProviderState with syncRows := [] } sampleDeps).state.cache =
      Provider.cacheSet
        (sampleProviderState.cache.filter (fun e => !(Provider.strContains e.fst ("o" ++ ":" ++ "r"))))
        (cacheKeyIssues "o" "r" 1 "")
        (if (Provider.checkSyncStatus ([] : List Provider.SyncRow) "o" "r").isNone then sampleDeps.upstreamIssues
         else Provider.mergeIssues sampleProviderState.issues sampleDeps.upstreamIssues))
    ∧ (Except.map (fun d => d.cache) (Webhook.handleIssuesRoute dbWithPage2Entry "o" "r" (some sampleIssue) 1000)
        = .ok ((dbWithPage2Entry.cache.filter (fun k => decide (k ≠ cacheKeyIssues "o" "r" 1 ""))).filter
            (fun k => decide (k ≠ singleIssueKey "o" "r" (sampleIssue.number.getD 0)))))
    ∧ (Except.map (fun d => d.cache) (Webhook.handleLabelRoute dbWithBugLabel "o" "r" (some labelBug) (some "edited") 999)
        = .ok dbWithBugLabel.cache) :=
  ⟨C2_invalidation_scope.1 { sampleProviderState with syncRows := [] } sampleDeps
      { owner := "o", repo := "r", issuesPerPage := none } "tok" rfl (by decide) rfl (by decide),
   C2_invalidation_scope.2.1 dbWithPage2Entry "o" "r" sampleIssue 1000 rfl rfl rfl,
   C2_invalidation_scope.2.2 dbWithBugLabel "o" "r" labelBug (some "edited") 999⟩

/-- Core of the ledger-retention argument: filtering a ledger with
pairwise-distinct ids by "id not scheduled for deletion" - where the
deletion schedule is everything past the first 20 of the descending sort of
the tenant's rows - keeps exactly the first 20 of that sort among the
tenant's rows, caps their count at 20, and leaves other tenants' rows
untouched. -/
theorem prunedLedger_spec (p : SyncHistoryRow → Bool) (l : List SyncHistoryRow)
    (hnd : (l.map (fun r => r.id)).Nodup) :
    ((l.filter (fun r => decide (r.id ∉ ((List.insertionSort Webhook.newerFirst (l.filter p)).drop 20).map (fun r => r.id)))).filter p).length
      = min (l.filter p).length 20
    ∧ (∀ x, x ∈ (l.filter (fun r => decide (r.id ∉ ((List.insertionSort Webhook.newerFirst (l.filter p)).drop 20).map (fun r => r.id)))).filter p
        ↔ x ∈ (List.insertionSort Webhook.newerFirst (l.filter p)).take 20)
    ∧ (l.filter (fun r => decide (r.id ∉ ((List.insertionSort Webhook.newerFirst (l.filter p)).drop 20).map (fun r => r.id)))).filter (fun r => !(p r))
        = l.filter (fun r => !(p r)) := by
  set tenant := l.filter p with hten
  set sorted := List.insertionSort Webhook.newerFirst tenant with hsorted
  set del := (sorted.drop 20).map (fun r => r.id) with hdel
  set q : SyncHistoryRow → Bool := fun r => decide (r.id ∉ del) with hq
  have hperm : List.Perm sorted tenant := List.perm_insertionSort _ _
  have htenNodup : (tenant.map (fun r => r.id)).Nodup :=
    List.Nodup.sublist (List.Sublist.map _ (List.filter_sublist l)) hnd
  have hsortNodup : (sorted.map (fun r => r.id)).Nodup :=
    (List.Perm.nodup_iff (List.Perm.map _ hperm)).mpr htenNodup
  have hsplit : sorted.take 20 ++ sorted.drop 20 = sorted := List.take_append_drop 20 sorted
  have hdisj : ∀ x ∈ sorted.take 20, x.id ∉ del := by
    intro x hx hxdel
    rw [hdel] at hxdel
    rcases List.mem_map.mp hxdel with ⟨y, hy, hyx⟩
    have hd : ((sorted.take 20).map (fun r => r.id)).Disjoint ((sorted.drop 20).map (fun r => r.id)) := by
      have h := hsortNodup
      rw [← hsplit, List.map_append, List.nodup_append] at h
      exact h.2.2
    exact hd (List.mem_map.mpr ⟨x, hx, rfl⟩) (List.mem_map.mpr ⟨y, hy, hyx⟩)
  have hdropdel : ∀ y ∈ sorted.drop 20, y.id ∈ del := by
    intro y hy
    rw [hdel]
    exact List.mem_map.mpr ⟨y, hy, rfl⟩
  have hqtake : ∀ x ∈ sorted.take 20, q x = true := by
    intro x hx
    rw [hq]
    simpa using hdisj x hx
  have hqdrop : ∀ y ∈ sorted.drop 20, q y = false := by
    intro y hy
    rw [hq]
    simpa using hdropdel y hy
  have hfsorted : sorted.filter q = sorted.take 20 := by
    conv_lhs => rw [← hsplit]
    rw [List.filter_append, List.filter_eq_self.mpr hqtake,
        List.filter_eq_nil_iff.mpr (fun a ha => by simp [hqdrop a ha]), List.append_nil]
  have hcomm : (l.filter q).filter p = tenant.filter q := by
    rw [hten, List.filter_filter, List.filter_filter]
    exact List.filter_congr (fun x _ => by rw [Bool.and_comm])
  have hpermq : List.Perm (tenant.filter q) (sorted.filter q) := (List.Perm.filter q hperm).symm
  refine ⟨?_, ?_, ?_⟩
  · rw [hcomm, hpermq.length_eq, hfsorted, List.length_take, hperm.length_eq]
    exact Nat.min_comm _ _
  · intro x
    rw [hcomm]
    constructor
    · intro hx
      rcases List.mem_filter.mp hx with ⟨hxt, hxq⟩
      have hxs : x ∈ sorted := hperm.mem_iff.mpr hxt
      rw [← hsplit] at hxs
      rcases List.mem_append.mp hxs with h | h
      · exact h
      · rw [hqdrop x h] at hxq
        exact absurd hxq (by simp)
    · intro hx
      have hxs : x ∈ sorted := List.take_subset _ _ hx
      exact List.mem_filter.mpr ⟨hperm.mem_iff.mp hxs, hqtake x hx⟩
  · rw [List.filter_filter]
    refine List.filter_congr ?_
    intro x hxl
    cases hpx : p x
    · have hqx : q x = true := by
        rw [hq]
        simp only [decide_eq_true_eq]
        intro hxdel
        rw [hdel] at hxdel
        rcases List.mem_map.mp hxdel with ⟨y, hy, hyx⟩
        have hys : y ∈ sorted := List.drop_subset _ _ hy
        have hyt : y ∈ tenant := hperm.mem_iff.mp hys
        rcases List.mem_filter.mp (hten ▸ hyt) with ⟨hyl, hpy⟩
        have hxy : y = x := List.inj_on_of_nodup_map hnd hyl hxl hyx
        rw [hxy] at hpy
        simp [hpy] at hpx
      simp [hpx, hqx]
    · simp [hpx]

/-- C6: after every insert through recordSync of the webhook route, the
tenant's sync_history rows are exactly the first 20 of the descending
last_sync_at sort of the tenant's rows after insertion (all of them when at
most 20 exist), their count is min(previous count + 1, 20) - so a 21st
insert prunes the oldest - and rows of other tenants are untouched.  The
hypotheses state the table invariants: ids are pairwise distinct and below
the id-sequence value. -/
theorem C6_ledger_retention (db : Db) (owner repo status : String) (n : Nat)
    (em : Option String) (now : Nat)
    (hids : (db.sync_history.map (fun r => r.id)).Nodup)
    (hfresh : ∀ r ∈ db.sync_history, r.id < db.nextId) :
    ((Webhook.recordSync db owner repo status n em now).sync_history.filter (Webhook.sameTenant owner repo)).length
      = min ((db.sync_history ++ [Webhook.insertedRow db owner repo status n em now]).filter (Webhook.sameTenant owner repo)).length 20
    ∧ (∀ x, x ∈ (Webhook.recordSync db owner repo status n em now).sync_history.filter (Webhook.sameTenant owner repo)
        ↔ x ∈ (List.insertionSort Webhook.newerFirst ((db.sync_history ++ [Webhook.insertedRow db owner repo status n em now]).filter (Webhook.sameTenant owner repo))).take 20)
    ∧ (Webhook.recordSync db owner repo status n em now).sync_history.filter (fun r => !(Webhook.sameTenant owner repo r))
        = db.sync_history.filter (fun r => !(Webhook.sameTenant owner repo r)) := by
  set newRow := Webhook.insertedRow db owner repo status n em now with hnew
  set inserted := db.sync_history ++ [newRow] with hins
  have hidnodup : (inserted.map (fun r => r.id)).Nodup := by
    rw [hins, List.map_append, List.nodup_append]
    refine ⟨hids, List.nodup_singleton _, ?_⟩
    intro a ha hb
    simp only [List.map_cons, List.map_nil, List.mem_singleton] at hb
    rcases List.mem_map.mp ha with ⟨r, hr, hra⟩
    have hlt : r.id < db.nextId := hfresh r hr
    have hbn : a = db.nextId := hb
    omega
  have hrs : (Webhook.recordSync db owner repo status n em now).sync_history
      = inserted.filter (fun r => decide (r.id ∉ ((List.insertionSort Webhook.newerFirst (inserted.filter (Webhook.sameTenant owner repo))).drop 20).map (fun r => r.id))) := by
    unfold Webhook.recordSync
    dsimp only
    rw [← hnew, ← hins]
    split
    · rfl
    · rename_i h
      have hle : (List.insertionSort Webhook.newerFirst (inserted.filter (Webhook.sameTenant owner repo))).length ≤ 20 := by omega
      have hdrop : (List.insertionSort Webhook.newerFirst (inserted.filter (Webhook.sameTenant owner repo))).drop 20 = [] :=
        List.drop_eq_nil_of_le hle
      rw [hdrop]
      symm
      apply List.filter_eq_self.mpr
      intro a _
      simp
  obtain ⟨h1, h2, h3⟩ := prunedLedger_spec (Webhook.sameTenant owner repo) inserted hidnodup
  have hnewp : Webhook.sameTenant owner repo newRow = true := by
    simp [Webhook.sameTenant, hnew, Webhook.insertedRow]
  have hinsnp : inserted.filter (fun r => !(Webhook.sameTenant owner repo r))
      = db.sync_history.filter (fun r => !(Webhook.sameTenant owner repo r)) := by
    rw [hins, List.filter_append]
    simp [hnewp]
  rw [hrs]
  exact ⟨h1, h2, h3.trans hinsnp⟩

/-- C6 witness: inserting into an empty ledger (distinct ids, fresh id
sequence hold trivially) retains exactly the one new tenant row. -/
theorem C6_ledger_retention_witness :
    ((Webhook.recordSync emptyDb "o" "r" "success" 1 none 5).sync_history.filter (Webhook.sameTenant "o" "r")).length
      = min ((emptyDb.sync_history ++ [Webhook.insertedRow emptyDb "o" "r" "success" 1 none 5]).filter (Webhook.sameTenant "o" "r")).length 20
    ∧ (∀ x, x ∈ (Webhook.recordSync emptyDb "o" "r" "success" 1 none 5).sync_history.filter (Webhook.sameTenant "o" "r")
        ↔ x ∈ (List.insertionSort Webhook.newerFirst ((emptyDb.sync_history ++ [Webhook.insertedRow emptyDb "o" "r" "success" 1 none 5]).filter (Webhook.sameTenant "o" "r"))).take 20)
    ∧ (Webhook.recordSync emptyDb "o" "r" "success" 1 none 5).sync_history.filter (fun r => !(Webhook.sameTenant "o" "r" r))
        = emptyDb.sync_history.filter (fun r => !(Webhook.sameTenant "o" "r" r)) :=
  C6_ledger_retention emptyDb "o" "r" "success" 1 none 5 (by decide) (by simp [emptyDb])

end Gitmemos
